import Mathlib

/-!
Verification of the storpool-inventory charm's flag-driven retry state
machine and its collect/submit operations, shallowly embedded from
`src/reactive/storpool_inventory_charm.py`.

The five reactive states `storpool-inventory.configured`, `.collecting`,
`.collected`, `.submitting`, `.submitted` become a record of booleans;
each hook/handler becomes a function from the prior flag record (plus the
relevant external inputs) to the resulting flag record.  External effects
that the claims mention (the HTTP call of `try_to_submit`) are counted
explicitly.
-/

namespace StorpoolInventory

/-- The five reactive states of the charm, as one record. -/
structure Flags where
  configured : Bool
  collecting : Bool
  collected : Bool
  submitting : Bool
  submitted : Bool
deriving DecidableEq, Repr

/-- `first_install` (the `install` hook): set `collecting`, remove
`collected`, set `submitting`, remove `submitted`.  The `configured`
state is not mentioned by the handler. -/
def first_install (s : Flags) : Flags :=
  { s with collecting := true, collected := false,
           submitting := true, submitted := false }

/-- `have_config` (the `config-changed` hook).  Inputs: `url` is
`config.get('submit_url', None)` and `changed` is
`config.changed('submit_url')`.  Mirrors the branch structure of the
Python handler: a non-`None` url with (`changed` or not `configured`)
sets `configured` and `submitting`, removes `submitted`, and triggers a
collection when neither `collected` nor `collecting` holds; a `None` url
removes `configured`, `submitting` and `submitted`. -/
def have_config (url : Option String) (changed : Bool) (s : Flags) : Flags :=
  match url with
  | some _ =>
    if changed || !s.configured then
      let s1 := { s with configured := true, submitting := true, submitted := false }
      if !s1.collected && !s1.collecting then
        { s1 with collecting := true }
      else
        s1
    else
      s
  | none =>
    { s with configured := false, submitting := false, submitted := false }

/-- What the environment does during a `collect` run: the package
installer fails (`install_packages` returns an error or raises), the
filesystem/subprocess part raises, or everything succeeds. -/
inductive CollectEnv where
  | installFail
  | fsFail
  | ok
deriving DecidableEq, Repr

/-- Flag effect of `collect`: `collecting` is removed at entry; the
install `try/except` returns early on failure; the collection
`try/except` swallows any exception; only the fully successful path sets
`collected`. -/
def collect (env : CollectEnv) (s : Flags) : Flags :=
  let s1 := { s with collecting := false }
  match env with
  | .installFail => s1
  | .fsFail => s1
  | .ok => { s1 with collected := true }

/-- What the environment does during a `try_to_submit` run once a url is
present: reading the data file raises, `urlopen` raises, or a response
is obtained whose `getcode()` returns `code` (possibly `None`). -/
inductive SubmitEnv where
  | readFail
  | httpFail
  | httpResp (code : Option Int)
deriving DecidableEq, Repr

/-- Flag effect of `try_to_submit`: `submitting` is removed at entry; a
`None` url returns early; exceptions while reading or submitting are
swallowed; on a response, `submitted` is set iff the code is not `None`
and `200 <= code < 300`. -/
def try_to_submit (url : Option String) (env : SubmitEnv) (s : Flags) : Flags :=
  let s1 := { s with submitting := false }
  match url with
  | none => s1
  | some _ =>
    match env with
    | .readFail => s1
    | .httpFail => s1
    | .httpResp code =>
      match code with
      | none => s1
      | some c => if 200 ≤ c ∧ c < 300 then { s1 with submitted := true } else s1

/-- Number of `urllib.request.urlopen` invocations a `try_to_submit` run
performs: none when the url is `None` or the data file cannot be read,
one otherwise. -/
def submitHttpCalls (url : Option String) (env : SubmitEnv) : Nat :=
  match url with
  | none => 0
  | some _ =>
    match env with
    | .readFail => 0
    | .httpFail => 1
    | .httpResp _ => 1

/-- `nowhere_to_submit_to`: fires when `configured` is unset while
`collected` and `submitting` are set and `submitted` unset; its body
only logs and mutates no state. -/
def nowhere_to_submit_to (s : Flags) : Flags := s

/-- The submission step that is due for a given flag state, following the
`@reactive.when`/`when_not` guards: `try_to_submit` when `configured`,
`collected`, `submitting` hold and `submitted` does not;
`nowhere_to_submit_to` in the same situation without `configured`;
otherwise no handler fires.  Returns the new flags and the number of
HTTP calls made. -/
def submission_step (url : Option String) (env : SubmitEnv) (s : Flags) :
    Flags × Nat :=
  if s.collected && s.submitting && !s.submitted then
    if s.configured then
      (try_to_submit url env s, submitHttpCalls url env)
    else
      (nowhere_to_submit_to s, 0)
  else
    (s, 0)

/-- `submit_if_needed` (the `update-status` hook): re-arm `collecting`
when not `collected`, re-arm `submitting` when not `submitted`. -/
def submit_if_needed (s : Flags) : Flags :=
  let s1 := if !s.collected then { s with collecting := true } else s
  if !s1.submitted then { s1 with submitting := true } else s1

/-- `recollect_and_resubmit` (the `upgrade-charm` hook): same four flag
mutations as `first_install`, plus removing `configured`. -/
def recollect_and_resubmit (s : Flags) : Flags :=
  { s with collecting := true, collected := false,
           submitting := true, submitted := false, configured := false }

/-!
JSON serialization of a `CollectedBundle`, as `collect` performs it:
`json.dumps(collected)` with the default options (`ensure_ascii=True`,
separators `', '` and `': '`), written to the data file by `print`,
i.e. with a trailing newline; and a JSON reader for objects of strings,
as `json.loads` accepts them (whitespace-tolerant, with the standard
two-character escapes and `\uXXXX` escapes).  The bundle is modelled as
an association list of strings; per the data model, its text is held in
a fixed single-byte-per-character encoding (`latin1` in the source), so
every character has a code point below 256.
-/

/-- Lowercase hexadecimal digit, as Python's `'{0:04x}'.format` emits. -/
def hexDig (n : Nat) : Char :=
  if n < 10 then Char.ofNat (48 + n) else Char.ofNat (87 + n)

/-- Value of one hexadecimal digit; `json.loads` accepts both cases. -/
def fromHexDig (c : Char) : Option Nat :=
  if 48 ≤ c.toNat ∧ c.toNat ≤ 57 then some (c.toNat - 48)
  else if 97 ≤ c.toNat ∧ c.toNat ≤ 102 then some (c.toNat - 87)
  else if 65 ≤ c.toNat ∧ c.toNat ≤ 70 then some (c.toNat - 55)
  else none

/-- `json.dumps` escaping of one character under `ensure_ascii=True`:
the seven short escapes, printable ASCII verbatim, and `\uXXXX`
otherwise (code points in the basic multilingual plane; the bundle's
single-byte text stays far below the surrogate-pair range). -/
def escChar (c : Char) : List Char :=
  if c = '\\' then ['\\', '\\']
  else if c = '"' then ['\\', '"']
  else if c.toNat = 8 then ['\\', 'b']
  else if c.toNat = 12 then ['\\', 'f']
  else if c.toNat = 10 then ['\\', 'n']
  else if c.toNat = 13 then ['\\', 'r']
  else if c.toNat = 9 then ['\\', 't']
  else if 32 ≤ c.toNat ∧ c.toNat ≤ 126 then [c]
  else ['\\', 'u', hexDig (c.toNat / 4096 % 16), hexDig (c.toNat / 256 % 16),
        hexDig (c.toNat / 16 % 16), hexDig (c.toNat % 16)]

/-- Escape every character of a string body. -/
def escList : List Char → List Char
  | [] => []
  | c :: cs => escChar c ++ escList cs

/-- A JSON string token: quote, escaped body, quote. -/
def encodeString (s : String) : List Char :=
  '"' :: (escList s.data ++ ['"'])

/-- One object member, `"key": "value"` (the `': '` separator). -/
def encodeMember (kv : String × String) : List Char :=
  encodeString kv.1 ++ ':' :: ' ' :: encodeString kv.2

/-- The members joined by `', '`, as `', '.join` produces. -/
def encodeMembers : List (String × String) → List Char
  | [] => []
  | [kv] => encodeMember kv
  | kv :: kv2 :: rest => encodeMember kv ++ ',' :: ' ' :: encodeMembers (kv2 :: rest)

/-- `json.dumps` of the bundle: the members wrapped in braces. -/
def dumps (m : List (String × String)) : String :=
  String.mk ('{' :: (encodeMembers m ++ ['}']))

/-- The text `collect` leaves in the bundle file: the JSON dump plus the
newline appended by `print(data, file=f)`. -/
def bundleFileText (m : List (String × String)) : String :=
  dumps m ++ "\n"

/-- JSON insignificant whitespace. -/
def isJsonWs (c : Char) : Bool :=
  c = ' ' || c = '\t' || c = '\n' || c = '\r'

/-- Drop leading insignificant whitespace. -/
def skipWs : List Char → List Char
  | [] => []
  | c :: rest => if isJsonWs c then skipWs rest else c :: rest

/-- The short escapes `json.loads` decodes after a backslash. -/
def simpleEsc (c : Char) : Option Char :=
  if c = '"' then some '"'
  else if c = '\\' then some '\\'
  else if c = '/' then some '/'
  else if c = 'b' then some (Char.ofNat 8)
  else if c = 'f' then some (Char.ofNat 12)
  else if c = 'n' then some (Char.ofNat 10)
  else if c = 'r' then some (Char.ofNat 13)
  else if c = 't' then some (Char.ofNat 9)
  else none

/-- Parse a JSON string body after the opening quote, up to and
including the closing quote, decoding escapes and rejecting raw control
characters (strict mode); returns the decoded characters and the rest
of the input. -/
def parseStrBody : List Char → Option (List Char × List Char)
  | [] => none
  | c :: rest =>
    if c = '"' then some ([], rest)
    else if c = '\\' then
      match rest with
      | [] => none
      | e :: rest2 =>
        if e = 'u' then
          match rest2 with
          | a :: b :: a2 :: b2 :: rest3 =>
            match fromHexDig a, fromHexDig b, fromHexDig a2, fromHexDig b2 with
            | some x, some y, some z, some w =>
              match parseStrBody rest3 with
              | some (cs, r) =>
                some (Char.ofNat (((x * 16 + y) * 16 + z) * 16 + w) :: cs, r)
              | none => none
            | _, _, _, _ => none
          | _ => none
        else
          match simpleEsc e with
          | some ec =>
            match parseStrBody rest2 with
            | some (cs, r) => some (ec :: cs, r)
            | none => none
          | none => none
    else if c.toNat < 32 then none
    else
      match parseStrBody rest with
      | some (cs, r) => some (c :: cs, r)
      | none => none

/-- Parse a JSON string token, opening quote included. -/
def parseJString : List Char → Option (String × List Char)
  | [] => none
  | c :: rest =>
    if c = '"' then
      match parseStrBody rest with
      | some (cs, r) => some (String.mk cs, r)
      | none => none
    else none

/-- Parse one `"key" : "value"` member, whitespace-tolerant around the
colon. -/
def parseMember (i : List Char) : Option ((String × String) × List Char) :=
  match parseJString i with
  | none => none
  | some (k, r1) =>
    match skipWs r1 with
    | [] => none
    | c :: r2 =>
      if c = ':' then
        match parseJString (skipWs r2) with
        | none => none
        | some (v, r3) => some ((k, v), r3)
      else none

/-- Parse a non-empty comma-separated member sequence up to and
including the closing brace.  The fuel argument bounds the number of
members; each step consumes at least one input character, so the input
length suffices. -/
def parseMembers : Nat → List Char → Option (List (String × String) × List Char)
  | 0, _ => none
  | fuel + 1, i =>
    match parseMember i with
    | none => none
    | some (kv, r) =>
      match skipWs r with
      | [] => none
      | c :: r2 =>
        if c = ',' then
          match parseMembers fuel (skipWs r2) with
          | some (kvs, r3) => some (kv :: kvs, r3)
          | none => none
        else if c = '}' then some ([kv], r2)
        else none

/-- `json.loads` restricted to the shape `collect` writes: one JSON
object whose values are strings, with nothing but whitespace after it. -/
def loads (s : String) : Option (List (String × String)) :=
  match skipWs s.data with
  | [] => none
  | c :: rest =>
    if c = '{' then
      match skipWs rest with
      | [] => none
      | c2 :: r2 =>
        if c2 = '}' then
          if skipWs r2 = [] then some [] else none
        else
          match parseMembers (r2.length + 2) (c2 :: r2) with
          | some (kvs, r) => if skipWs r = [] then some kvs else none
          | none => none
    else none

/-- All characters of the string fit in one byte — the data model's
fixed single-byte-per-character encoding (`latin1` in the source). -/
def SingleByte (s : String) : Prop :=
  ∀ c ∈ s.data, c.toNat < 256

instance (s : String) : Decidable (SingleByte s) :=
  inferInstanceAs (Decidable (∀ c ∈ s.data, c.toNat < 256))

theorem fromHexDig_hexDig (n : Nat) (h : n < 16) :
    fromHexDig (hexDig n) = some n := by
  interval_cases n <;> decide

theorem skipWs_cons_not_ws (c : Char) (l : List Char) (h : isJsonWs c = false) :
    skipWs (c :: l) = c :: l := by
  simp [skipWs, h]

theorem skipWs_encodeString_append (s : String) (r : List Char) :
    skipWs (encodeString s ++ r) = encodeString s ++ r := by
  simp [encodeString, skipWs, isJsonWs]

theorem parseStrBody_escChar (c : Char) (h : c.toNat < 256) (rest : List Char) :
    parseStrBody (escChar c ++ rest) =
      match parseStrBody rest with
      | some (cs, r) => some (c :: cs, r)
      | none => none := by
  rcases hp : parseStrBody rest with _ | ⟨cs, r⟩
  all_goals
    by_cases h1 : c = '\\'
    · subst h1
      rw [show escChar '\\' ++ rest = '\\' :: '\\' :: rest from rfl,
        parseStrBody.eq_def]
      simp [simpleEsc, hp]
    by_cases h2 : c = '"'
    · subst h2
      rw [show escChar '"' ++ rest = '\\' :: '"' :: rest from rfl,
        parseStrBody.eq_def]
      simp [simpleEsc, hp]
    by_cases h3 : c.toNat = 8
    · have hc : Char.ofNat 8 = c := by rw [← h3, Char.ofNat_toNat]
      subst hc
      rw [show escChar (Char.ofNat 8) = ['\\', 'b'] by decide,
        List.cons_append, List.cons_append, List.nil_append, parseStrBody.eq_def]
      simp [simpleEsc, hp]
    by_cases h4 : c.toNat = 12
    · have hc : Char.ofNat 12 = c := by rw [← h4, Char.ofNat_toNat]
      subst hc
      rw [show escChar (Char.ofNat 12) = ['\\', 'f'] by decide,
        List.cons_append, List.cons_append, List.nil_append, parseStrBody.eq_def]
      simp [simpleEsc, hp]
    by_cases h5 : c.toNat = 10
    · have hc : Char.ofNat 10 = c := by rw [← h5, Char.ofNat_toNat]
      subst hc
      rw [show escChar (Char.ofNat 10) = ['\\', 'n'] by decide,
        List.cons_append, List.cons_append, List.nil_append, parseStrBody.eq_def]
      simp [simpleEsc, hp]
    by_cases h6 : c.toNat = 13
    · have hc : Char.ofNat 13 = c := by rw [← h6, Char.ofNat_toNat]
      subst hc
      rw [show escChar (Char.ofNat 13) = ['\\', 'r'] by decide,
        List.cons_append, List.cons_append, List.nil_append, parseStrBody.eq_def]
      simp [simpleEsc, hp]
    by_cases h7 : c.toNat = 9
    · have hc : Char.ofNat 9 = c := by rw [← h7, Char.ofNat_toNat]
      subst hc
      rw [show escChar (Char.ofNat 9) = ['\\', 't'] by decide,
        List.cons_append, List.cons_append, List.nil_append, parseStrBody.eq_def]
      simp [simpleEsc, hp]
    by_cases h8 : 32 ≤ c.toNat ∧ c.toNat ≤ 126
    · have hlt : ¬ c.toNat < 32 := by omega
      rw [show escChar c = [c] by simp [escChar, h1, h2, h3, h4, h5, h6, h7, h8],
        List.cons_append, List.nil_append, parseStrBody.eq_def]
      simp [h1, h2, hlt, hp]
    · have d1 := fromHexDig_hexDig (c.toNat / 4096 % 16) (Nat.mod_lt _ (by norm_num))
      have d2 := fromHexDig_hexDig (c.toNat / 256 % 16) (Nat.mod_lt _ (by norm_num))
      have d3 := fromHexDig_hexDig (c.toNat / 16 % 16) (Nat.mod_lt _ (by norm_num))
      have d4 := fromHexDig_hexDig (c.toNat % 16) (Nat.mod_lt _ (by norm_num))
      have hval : ((c.toNat / 4096 % 16 * 16 + c.toNat / 256 % 16) * 16 +
          c.toNat / 16 % 16) * 16 + c.toNat % 16 = c.toNat := by omega
      rw [show escChar c = ['\\', 'u', hexDig (c.toNat / 4096 % 16),
            hexDig (c.toNat / 256 % 16), hexDig (c.toNat / 16 % 16),
            hexDig (c.toNat % 16)] by
          simp [escChar, h1, h2, h3, h4, h5, h6, h7, h8]]
      rw [show ['\\', 'u', hexDig (c.toNat / 4096 % 16),
            hexDig (c.toNat / 256 % 16), hexDig (c.toNat / 16 % 16),
            hexDig (c.toNat % 16)] ++ rest =
          '\\' :: 'u' :: hexDig (c.toNat / 4096 % 16) ::
            hexDig (c.toNat / 256 % 16) :: hexDig (c.toNat / 16 % 16) ::
            hexDig (c.toNat % 16) :: rest from rfl, parseStrBody.eq_def]
      simp [d1, d2, d3, d4, hval, Char.ofNat_toNat, hp]

theorem parseStrBody_escList (cs : List Char) (h : ∀ c ∈ cs, c.toNat < 256)
    (rest : List Char) :
    parseStrBody (escList cs ++ ('"' :: rest)) = some (cs, rest) := by
  induction cs with
  | nil =>
    rw [show escList [] ++ ('"' :: rest) = '"' :: rest from rfl,
      parseStrBody.eq_def]
    simp
  | cons c cs ih =>
    have hc : c.toNat < 256 := h c (List.mem_cons_self c cs)
    have hcs : ∀ x ∈ cs, x.toNat < 256 := fun x hx => h x (List.mem_cons_of_mem c hx)
    rw [show escList (c :: cs) = escChar c ++ escList cs from rfl,
      List.append_assoc, parseStrBody_escChar c hc, ih hcs]

theorem parseJString_encodeString (s : String) (h : SingleByte s)
    (rest : List Char) :
    parseJString (encodeString s ++ rest) = some (s, rest) := by
  rw [show encodeString s ++ rest = '"' :: (escList s.data ++ ('"' :: rest)) by
    simp [encodeString]]
  simp [parseJString, parseStrBody_escList s.data h rest]

theorem parseJString_quote_form (s : String) (h : SingleByte s)
    (rest : List Char) :
    parseJString ('"' :: (escList s.data ++ '"' :: rest)) = some (s, rest) := by
  rw [show ('"' :: (escList s.data ++ '"' :: rest) : List Char) =
      encodeString s ++ rest by simp [encodeString]]
  exact parseJString_encodeString s h rest

theorem parseMember_encodeMember (kv : String × String)
    (hk : SingleByte kv.1) (hv : SingleByte kv.2) (rest : List Char) :
    parseMember (encodeMember kv ++ rest) = some (kv, rest) := by
  obtain ⟨k, v⟩ := kv
  rw [show encodeMember (k, v) ++ rest =
      encodeString k ++ (':' :: ' ' :: (encodeString v ++ rest)) by
    simp [encodeMember]]
  rw [parseMember, parseJString_encodeString k hk]
  simp [skipWs, isJsonWs, skipWs_encodeString_append,
    parseJString_encodeString v hv, parseJString_quote_form v hv]

theorem encodeMembers_cons_head (kv : String × String)
    (m : List (String × String)) :
    ∃ t, encodeMembers (kv :: m) = '"' :: t := by
  cases m <;> simp [encodeMembers, encodeMember, encodeString]

theorem length_le_encodeMembers (m : List (String × String)) :
    m.length ≤ (encodeMembers m).length := by
  induction m with
  | nil => simp [encodeMembers]
  | cons kv m ih =>
    cases m with
    | nil => simp [encodeMembers, encodeMember, encodeString]
    | cons kv2 m2 =>
      rw [show encodeMembers (kv :: kv2 :: m2) =
          encodeMember kv ++ ',' :: ' ' :: encodeMembers (kv2 :: m2) from rfl]
      simp only [List.length_append, List.length_cons] at *
      omega

theorem parseMembers_encodeMembers (m : List (String × String)) :
    ∀ (fuel : Nat) (rest : List Char),
      (∀ kv ∈ m, SingleByte kv.1 ∧ SingleByte kv.2) → m ≠ [] →
      m.length < fuel →
      parseMembers fuel (encodeMembers m ++ ('}' :: rest)) = some (m, rest) := by
  induction m with
  | nil => intro fuel rest _ hne _; exact absurd rfl hne
  | cons kv m ih =>
    intro fuel rest h _ hlen
    obtain ⟨hk, hv⟩ := h kv (List.mem_cons_self kv m)
    cases fuel with
    | zero => omega
    | succ f =>
      cases m with
      | nil =>
        rw [show encodeMembers [kv] = encodeMember kv from rfl, parseMembers,
          parseMember_encodeMember kv hk hv]
        simp [skipWs, isJsonWs]
      | cons kv2 m2 =>
        have hm2 : ∀ x ∈ kv2 :: m2, SingleByte x.1 ∧ SingleByte x.2 :=
          fun x hx => h x (List.mem_cons_of_mem kv hx)
        obtain ⟨t, ht⟩ := encodeMembers_cons_head kv2 m2
        rw [show encodeMembers (kv :: kv2 :: m2) ++ ('}' :: rest) =
            encodeMember kv ++
              (',' :: ' ' :: (encodeMembers (kv2 :: m2) ++ ('}' :: rest))) by
          simp [encodeMembers]]
        rw [parseMembers, parseMember_encodeMember kv hk hv]
        have hsw : skipWs (encodeMembers (kv2 :: m2) ++ ('}' :: rest)) =
            encodeMembers (kv2 :: m2) ++ ('}' :: rest) := by
          rw [ht]; exact skipWs_cons_not_ws '"' _ rfl
        have hih := ih f rest hm2 (by simp) (by simp at hlen ⊢; omega)
        simp [skipWs, isJsonWs, hsw, hih]

/-- C9: dumping a bundle to the data file as `collect` does — the JSON
object text plus the trailing newline of `print` — and parsing the file
text back as JSON returns exactly the original bundle.  Per the data
model, the bundle's names and texts are single-byte-encoded strings. -/
theorem bundle_file_roundtrip (m : List (String × String))
    (h : ∀ kv ∈ m, SingleByte kv.1 ∧ SingleByte kv.2) :
    loads (bundleFileText m) = some m := by
  have hdata : (bundleFileText m).data =
      '{' :: (encodeMembers m ++ ('}' :: ['\n'])) := by
    simp [bundleFileText, dumps, String.data_append]
  rw [loads, hdata, skipWs_cons_not_ws '{' _ rfl]
  simp only [reduceIte]
  cases m with
  | nil =>
    rw [show encodeMembers ([] : List (String × String)) ++ ('}' :: ['\n']) =
        '}' :: ['\n'] from rfl,
      skipWs_cons_not_ws '}' _ rfl]
    simp [skipWs, isJsonWs]
  | cons kv m2 =>
    obtain ⟨t, ht⟩ := encodeMembers_cons_head kv m2
    rw [show skipWs (encodeMembers (kv :: m2) ++ ('}' :: ['\n'])) =
        encodeMembers (kv :: m2) ++ ('}' :: ['\n']) by
      rw [ht]; exact skipWs_cons_not_ws '"' _ rfl]
    have hhead : encodeMembers (kv :: m2) ++ ('}' :: ['\n']) =
        '"' :: (t ++ ('}' :: ['\n'])) := by rw [ht]; rfl
    have hlen : (kv :: m2).length <
        (t ++ ('}' :: ['\n'])).length + 2 := by
      have := length_le_encodeMembers (kv :: m2)
      rw [ht] at this
      simp only [List.length_cons, List.length_append] at *
      omega
    rw [hhead]
    simp only [List.cons.injEq, reduceIte]
    rw [← hhead, parseMembers_encodeMembers (kv :: m2) _ ['\n'] h (by simp) (by
      simpa using hlen)]
    simp [skipWs, isJsonWs]

/-- Witness for `bundle_file_roundtrip` on a concrete bundle with
newlines, quotes, backslashes, a control character and a non-ASCII
byte. -/
theorem bundle_file_roundtrip_witness :
    loads (bundleFileText
      [("collect.sh", "#!/bin/bash\ncd /tmp\n"),
       ("lsblk.txt", "NAME \"sda\" \\dev\\ é\u0007")]) =
    some [("collect.sh", "#!/bin/bash\ncd /tmp\n"),
          ("lsblk.txt", "NAME \"sda\" \\dev\\ é\u0007")] :=
  bundle_file_roundtrip _ (by decide)

end StorpoolInventory

namespace StorpoolInventory

/-- C5: on any prior flag state, the install hook ends with
`collecting` and `submitting` set and `collected` and `submitted`
cleared. -/
theorem first_install_resets (s : Flags) :
    (first_install s).collecting = true ∧ (first_install s).submitting = true ∧
    (first_install s).collected = false ∧ (first_install s).submitted = false := by
  simp [first_install]

/-- C10: the install hook leaves `configured` exactly as it was, and the
upgrade-charm hook is the install hook plus clearing `configured`; hence
a configured unit is still configured after install. -/
theorem first_install_preserves_configured (s : Flags) :
    (first_install s).configured = s.configured ∧
    recollect_and_resubmit s = { first_install s with configured := false } := by
  simp [first_install, recollect_and_resubmit]

/-- C8: a present, unchanged url on an already configured unit makes
`have_config` the identity on the flags. -/
theorem have_config_unchanged_noop (u : String) (s : Flags)
    (h : s.configured = true) :
    have_config (some u) false s = s := by
  simp [have_config, h]

/-- Witness for `have_config_unchanged_noop` at a concrete state. -/
theorem have_config_unchanged_noop_witness :
    have_config (some "http://x") false ⟨true, false, true, true, false⟩ =
      ⟨true, false, true, true, false⟩ :=
  have_config_unchanged_noop "http://x" ⟨true, false, true, true, false⟩ rfl

/-- C3: a present url that changed or found the unit unconfigured sets
`configured` and `submitting`, clears `submitted`, leaves `collected`
alone, and sets `collecting` exactly when neither `collected` nor
`collecting` held before. -/
theorem have_config_rearms (u : String) (changed : Bool) (s : Flags)
    (h : changed = true ∨ s.configured = false) :
    (have_config (some u) changed s).configured = true ∧
    (have_config (some u) changed s).submitting = true ∧
    (have_config (some u) changed s).submitted = false ∧
    (have_config (some u) changed s).collected = s.collected ∧
    (have_config (some u) changed s).collecting =
      (if s.collected = false ∧ s.collecting = false then true else s.collecting) := by
  have hc : (changed || !s.configured) = true := by
    rcases h with h | h <;> simp [h]
  cases hcd : s.collected <;> cases hcg : s.collecting <;>
    simp [have_config, hc, hcd, hcg]

/-- C1 counterexample: with `collected` and `submitting` set, `submitted`
and `configured` unset, the due submission step is `nowhere_to_submit_to`,
which mutates no state — so `submitting` is NOT cleared afterwards,
contrary to the claim. -/
theorem nowhere_keeps_submitting :
    ¬ ((submission_step none SubmitEnv.readFail
        ⟨false, false, true, true, false⟩).1.submitting = false) := by
  decide

/-- C1 amended: with `collected` and `submitting` set, `submitted` and
`configured` unset, the due submission step performs no submission work
(zero HTTP calls) and leaves the whole flag state unchanged — in
particular `submitting` stays set, so no re-arming is needed for a later
attempt. -/
theorem nowhere_step_is_noop (url : Option String) (env : SubmitEnv) (s : Flags)
    (hcd : s.collected = true) (hsg : s.submitting = true)
    (hsd : s.submitted = false) (hcf : s.configured = false) :
    submission_step url env s = (s, 0) := by
  simp [submission_step, nowhere_to_submit_to, hcd, hsg, hsd, hcf]

/-- Witness for `nowhere_step_is_noop` at a concrete state. -/
theorem nowhere_step_is_noop_witness :
    submission_step none SubmitEnv.httpFail ⟨false, true, true, true, false⟩ =
      (⟨false, true, true, true, false⟩, 0) :=
  nowhere_step_is_noop none SubmitEnv.httpFail ⟨false, true, true, true, false⟩
    rfl rfl rfl rfl

/-- C2: once `try_to_submit` obtains an HTTP response, `submitted` ends
true iff the response code is present and in `[200, 300)`; obtaining a
response means exactly one HTTP call was made, and at code 300 the flag
stays false. -/
theorem try_to_submit_response (u : String) (code : Option Int) (s : Flags)
    (hsub : s.submitted = false) :
    ((try_to_submit (some u) (SubmitEnv.httpResp code) s).submitted = true ↔
      ∃ c, code = some c ∧ 200 ≤ c ∧ c < 300) ∧
    submitHttpCalls (some u) (SubmitEnv.httpResp code) = 1 ∧
    (try_to_submit (some u) (SubmitEnv.httpResp (some 300)) s).submitted = false := by
  refine ⟨?_, rfl, ?_⟩
  · cases code with
    | none => simp [try_to_submit, hsub]
    | some c =>
      by_cases h : 200 ≤ c ∧ c < 300 <;> simp [try_to_submit, h, hsub]
  · norm_num [try_to_submit, hsub]

/-- Witness for `try_to_submit_response` at a concrete response code. -/
theorem try_to_submit_response_witness :
    ((try_to_submit (some "u") (SubmitEnv.httpResp (some 204))
        ⟨true, false, true, true, false⟩).submitted = true ↔
      ∃ c, (some (204 : Int)) = some c ∧ 200 ≤ c ∧ c < 300) ∧
    submitHttpCalls (some "u") (SubmitEnv.httpResp (some 204)) = 1 ∧
    (try_to_submit (some "u") (SubmitEnv.httpResp (some 300))
        ⟨true, false, true, true, false⟩).submitted = false :=
  try_to_submit_response "u" (some 204) ⟨true, false, true, true, false⟩ rfl

/-- C4 (code bug): `have_config` checks only `url is not None`, so an
empty-string `submit_url` takes the configured branch.  Starting from
`configured`, `submitting`, `submitted` all set, an empty changed url
yields configured/collecting/submitting set, while an absent url clears
everything — the two are NOT treated the same, although the repository's
own unit test (`test_hook_config_changed`) asserts they are. -/
theorem have_config_empty_url_divergence :
    have_config (some "") true ⟨true, false, false, true, true⟩ =
      ⟨true, true, false, true, false⟩ ∧
    have_config none true ⟨true, false, false, true, true⟩ =
      ⟨false, false, false, false, false⟩ ∧
    have_config (some "") true ⟨true, false, false, true, true⟩ ≠
      have_config none true ⟨true, false, false, true, true⟩ := by
  refine ⟨rfl, rfl, ?_⟩
  decide

/-- C6: any failure inside the guarded `collect` or `try_to_submit`
bodies is absorbed there (both embeddings are total functions: nothing
propagates); the done flag (`collected` resp. `submitted`) stays false
and the in-progress flag (`collecting` resp. `submitting`) ends cleared,
having been removed at entry. -/
theorem failures_contained (env : CollectEnv) (senv : SubmitEnv)
    (url : Option String) (s t : Flags)
    (hcd : s.collected = false) (hsd : t.submitted = false)
    (henv : env ≠ CollectEnv.ok)
    (hsenv : senv = SubmitEnv.readFail ∨ senv = SubmitEnv.httpFail) :
    ((collect env s).collected = false ∧ (collect env s).collecting = false) ∧
    ((try_to_submit url senv t).submitted = false ∧
     (try_to_submit url senv t).submitting = false) := by
  constructor
  · cases env with
    | installFail => simp [collect, hcd]
    | fsFail => simp [collect, hcd]
    | ok => exact absurd rfl henv
  · rcases hsenv with h | h <;> subst h <;> cases url <;>
      simp [try_to_submit, hsd]

/-- Witness for `failures_contained` at concrete failing runs. -/
theorem failures_contained_witness :
    ((collect CollectEnv.fsFail ⟨true, true, false, false, false⟩).collected = false ∧
     (collect CollectEnv.fsFail ⟨true, true, false, false, false⟩).collecting = false) ∧
    ((try_to_submit (some "u") SubmitEnv.httpFail
        ⟨true, false, true, true, false⟩).submitted = false ∧
     (try_to_submit (some "u") SubmitEnv.httpFail
        ⟨true, false, true, true, false⟩).submitting = false) :=
  failures_contained CollectEnv.fsFail SubmitEnv.httpFail (some "u")
    ⟨true, true, false, false, false⟩ ⟨true, false, true, true, false⟩
    rfl rfl (by decide) (Or.inr rfl)

/-- C7: `try_to_submit` with no url available returns before any HTTP
work: zero HTTP calls, `submitting` cleared at entry, `submitted` left
false. -/
theorem try_to_submit_no_url (env : SubmitEnv) (s : Flags)
    (hsd : s.submitted = false) :
    (try_to_submit none env s).submitting = false ∧
    (try_to_submit none env s).submitted = false ∧
    submitHttpCalls none env = 0 := by
  exact ⟨rfl, hsd, rfl⟩

/-- Witness for `try_to_submit_no_url` at a concrete state. -/
theorem try_to_submit_no_url_witness :
    (try_to_submit none (SubmitEnv.httpResp (some 200))
        ⟨false, false, true, true, false⟩).submitting = false ∧
    (try_to_submit none (SubmitEnv.httpResp (some 200))
        ⟨false, false, true, true, false⟩).submitted = false ∧
    submitHttpCalls none (SubmitEnv.httpResp (some 200)) = 0 :=
  try_to_submit_no_url (SubmitEnv.httpResp (some 200))
    ⟨false, false, true, true, false⟩ rfl

/-- Witness for `have_config_rearms` at a concrete state. -/
theorem have_config_rearms_witness :
    (have_config (some "u") true ⟨false, false, false, false, true⟩).configured = true ∧
    (have_config (some "u") true ⟨false, false, false, false, true⟩).submitting = true ∧
    (have_config (some "u") true ⟨false, false, false, false, true⟩).submitted = false ∧
    (have_config (some "u") true ⟨false, false, false, false, true⟩).collected =
      (⟨false, false, false, false, true⟩ : Flags).collected ∧
    (have_config (some "u") true ⟨false, false, false, false, true⟩).collecting =
      (if (⟨false, false, false, false, true⟩ : Flags).collected = false ∧
          (⟨false, false, false, false, true⟩ : Flags).collecting = false then true
       else (⟨false, false, false, false, true⟩ : Flags).collecting) :=
  have_config_rearms "u" true ⟨false, false, false, false, true⟩ (Or.inl rfl)

end StorpoolInventory
